import Mathlib

/-!
Verification development for the elements-highlighter content script
(`src/content/index.ts`).  The annotation store, its mutating operations,
the overlay geometry, the CSS selector generator and the persistence layer
are shallowly embedded as executable Lean definitions; machine ids produced
by `generateId` are modelled by a fresh-id counter, DOM side effects by an
explicit effect trace, and `localStorage` by an `Option` snapshot cell.
-/

set_option linter.unusedVariables false

/-- Decidability of a bounded forall over an `Option`. -/
instance optionDecidableBAll {α : Type} {P : α → Prop} [DecidablePred P] :
    (o : Option α) → Decidable (∀ a ∈ o, P a)
  | none => isTrue (fun a h => nomatch h)
  | some x =>
    decidable_of_iff (P x)
      (Iff.intro (fun hp a ha => by cases ha; exact hp) (fun h => h x rfl))

/-- Page-coordinate bounding box, as stored in `SelectedElement.rect`. -/
structure Rect where
  top : ℚ
  left : ℚ
  width : ℚ
  height : ℚ
deriving DecidableEq

/-- The fixed frame-color palette from `src/types/index.ts`. -/
inductive FrameColor where
  | red
  | blue
  | green
  | yellow
  | black
deriving DecidableEq

/-- One annotation record, mirroring the `SelectedElement` interface of
`src/types/index.ts`.  Ids are modelled as naturals drawn from a fresh-id
counter (the source's `generateId` produces unique random strings). -/
structure SelectedElement where
  id : Nat
  label : String
  parentId : Option Nat
  selector : String
  tagName : String
  color : FrameColor
  padding : ℚ
  rect : Rect
deriving DecidableEq

/-- A positioned box (top/left/width/height) as written into overlay CSS. -/
structure Box where
  top : ℚ
  left : ℚ
  width : ℚ
  height : ℚ
deriving DecidableEq

/-- The `borderWidth = 3` constant used throughout the overlay code. -/
def borderWidth : ℚ := 3

/-- The frame geometry computed by `createFrameOverlay` (lines 194-198):
content-box position `top/left - borderWidth - padding` and size
`width/height + padding * 2` (the border is drawn outside this box).
`updateOverlayPositions` (lines 412-417) writes the same values. -/
def frameOverlayBox (top left width height padding : ℚ) : Box :=
  { top := top - borderWidth - padding
    left := left - borderWidth - padding
    width := width + padding * 2
    height := height + padding * 2 }

/-- The frame style values written by `updatePadding` (lines 568-575).
Note the width/height there are `rect.width/height + borderWidth * 2 +
padding * 2`, unlike `createFrameOverlay` and `updateOverlayPositions`. -/
def updatePaddingFrameStyle (r : Rect) (padding : ℚ) : Box :=
  { top := r.top - borderWidth - padding
    left := r.left - borderWidth - padding
    width := r.width + borderWidth * 2 + padding * 2
    height := r.height + borderWidth * 2 + padding * 2 }

/-- `calculateBadgeWidth` (lines 220-222). -/
def calculateBadgeWidth (label : String) : Nat :=
  if label.length ≤ 2 then 28 else max 28 (label.length * 10 + 12)

/-- The badge geometry computed by `createNumberBadge` (lines 234-242):
height 28, width from `calculateBadgeWidth`, centred on the outer corner
of the frame. -/
def badgeBox (label : String) (top left padding : ℚ) : Box :=
  { top := top - padding - borderWidth - 28 / 2
    left := left - padding - borderWidth - (calculateBadgeWidth label : ℚ) / 2
    width := (calculateBadgeWidth label : ℚ)
    height := 28 }

/-- Value of a (non-empty) list of decimal digit characters. -/
def digitsVal (ds : List Char) : Nat :=
  ds.foldl (fun n c => n * 10 + (c.toNat - '0'.toNat)) 0

/-- The source's regex match of a dash followed by trailing digits (used by
`startFocus`, line 610) and
`startEditing` (line 1314): the numeric value of a trailing `-<digits>`
suffix of a label, if present. -/
def trailingSubNumber (label : String) : Option Nat :=
  let rev := label.toList.reverse
  let digits := rev.takeWhile Char.isDigit
  if digits.isEmpty then none
  else
    match rev.drop digits.length with
    | '-' :: _ => some (digitsVal digits.reverse)
    | _ => none

/-- JavaScript `parseInt(s, 10)`: skip leading whitespace, optional sign,
then the longest leading run of decimal digits; `none` models `NaN`. -/
def parseIntJS (s : String) : Option Int :=
  let cs := s.toList.dropWhile (fun c => c = ' ' ∨ c = '\t' ∨ c = '\n' ∨ c = '\r')
  let signAndRest : Int × List Char :=
    match cs with
    | '-' :: rest => (-1, rest)
    | '+' :: rest => (1, rest)
    | _ => (1, cs)
  let digits := signAndRest.2.takeWhile Char.isDigit
  if digits.isEmpty then none
  else some (signAndRest.1 * (digitsVal digits : Int))

/-- The accumulator pattern of the source's `reduce((max, el) => ...)` over
optional numeric parses, starting from 0 (Nat version). -/
def foldMaxOpt {α : Type} (g : α → Option Nat) (l : List α) : Nat :=
  l.foldl
    (fun mx x =>
      match g x with
      | some n => max mx n
      | none => mx) 0

/-- The accumulator pattern of the source's `reduce((max, el) => ...)` over
optional numeric parses, starting from 0 (Int version, for `parseInt`). -/
def foldMaxOptInt {α : Type} (g : α → Option Int) (l : List α) : Int :=
  l.foldl
    (fun mx x =>
      match g x with
      | some n => max mx n
      | none => mx) 0

/-- `startFocus` lines 607-615: maximum trailing sub-number among the
children of `pid`. -/
def maxSubNumber (els : List SelectedElement) (pid : Nat) : Nat :=
  foldMaxOpt (fun e => trailingSubNumber e.label)
    (els.filter (fun e => e.parentId == some pid))

/-- Specification-side reading of the sub-counter: the maximum over the
parsed trailing suffixes of the children's labels (0 when there are none). -/
def specMaxSubNumber (els : List SelectedElement) (pid : Nat) : Nat :=
  (((els.filter (fun e => e.parentId == some pid)).map
      (fun e => e.label)).filterMap trailingSubNumber).foldr max 0

/-- Specification-side reading of the top-level counter recomputation: the
maximum integer parse among the given labels, floored at 0. -/
def specMaxLabelInt (labels : List String) : Int :=
  (labels.filterMap parseIntJS).foldr max 0

/-- One entry of `parent.children` as read by `getSelector`: the child's
tag name, its class attribute (only referenced by the specification's
uniqueness condition, never by the code), and whether it is the node being
described (`children[i] === current`). -/
structure DomChild where
  tag : String
  className : String
  isSelf : Bool
deriving DecidableEq

/-- One node of the ancestor walk in `getSelector`: the node's tag name and
class string, plus its parent's child list (`none` models a detached node
with no `parentElement`). -/
structure DomNode where
  tagName : String
  className : String
  parentChildren : Option (List DomChild)
deriving DecidableEq

/-- A DOM element as consumed by `getSelector`: its `id` attribute (empty
string when absent) and the chain of nodes visited by the ancestor walk —
the element first, then its ancestors strictly below `document.body`.  The
chain is empty exactly when the element is the body itself. -/
structure DomElem where
  idAttr : String
  chain : List DomNode
deriving DecidableEq

/-- JavaScript `\w` together with `-`: the characters the manual escape of
`escapeClassName` leaves untouched. -/
def isWordChar (c : Char) : Bool :=
  c.isAlpha || c.isDigit || c == '_' || c == '-'

/-- `tagName.toLowerCase()`, character by character (tag names are
ASCII). -/
def toLowerString (s : String) : String :=
  String.mk (s.toList.map Char.toLower)

/-- `String.prototype.startsWith`. -/
def strStartsWith (s pre : String) : Bool :=
  pre.toList.isPrefixOf s.toList

/-- `String.prototype.split` on a single separator character: JavaScript
semantics, where an empty string yields one empty field. -/
def splitOnChar (sep : Char) : List Char → List (List Char)
  | [] => [[]]
  | c :: rest =>
    let r := splitOnChar sep rest
    if c == sep then [] :: r
    else
      match r with
      | [] => [[c]]
      | g :: gs => (c :: g) :: gs

/-- `className.split(' ')`. -/
def splitClassName (s : String) : List String :=
  (splitOnChar ' ' s.toList).map (fun g => String.mk g)

/-- `Array.prototype.join(sep)`. -/
def joinSep (sep : String) : List String → String
  | [] => ""
  | [x] => x
  | x :: xs => x ++ sep ++ joinSep sep xs

/-- `escapeClassName` (lines 86-93), manual-escape branch: prefix every
character outside `[A-Za-z0-9_-]` with a backslash, then rewrite a leading
digit `d` to a backslash, `3`, `d` and a space. -/
def escapeClassName (className : String) : String :=
  let escaped := String.mk
    (className.toList.foldr
      (fun c acc => if isWordChar c then c :: acc else '\\' :: c :: acc) [])
  match escaped.toList with
  | c :: rest =>
    if c.isDigit then String.mk ('\\' :: '3' :: c :: ' ' :: rest) else escaped
  | [] => escaped

/-- The sibling scan of `getSelector` (lines 124-134): fold over
`parent.children` counting children with the node's tag and recording the
1-based position of the node itself among them. -/
def sameTagPosition (tagName : String) (children : List DomChild) : Nat × Nat :=
  children.foldl
    (fun acc child =>
      if child.tag == tagName then
        (acc.1 + 1, if child.isSelf then acc.1 + 1 else acc.2)
      else acc)
    (0, 0)

/-- The per-ancestor selector segment built by the body of the `while` loop
in `getSelector` (lines 105-138): lowercased tag, at most two non-internal
escaped class names, and a `:nth-of-type` suffix when more than one sibling
shares the tag. -/
def segmentOf (n : DomNode) : String :=
  let base := toLowerString n.tagName
  let classes :=
    ((splitClassName n.className).filter
      (fun c => !(c == "") && !(strStartsWith c "wdh-"))).take 2
  let base :=
    if classes.length > 0 then
      base ++ "." ++ joinSep "." (classes.map escapeClassName)
    else base
  match n.parentChildren with
  | some children =>
    let counts := sameTagPosition n.tagName children
    if counts.1 > 1 then
      base ++ ":nth-of-type(" ++ toString counts.2 ++ ")"
    else base
  | none => base

/-- The `path.unshift(selector)` accumulation of `getSelector`'s loop. -/
def buildPath : List DomNode → List String → List String
  | [], path => path
  | n :: rest, path => buildPath rest (segmentOf n :: path)

/-- `getSelector` (lines 96-145): `#id` shortcut, otherwise the ancestor
walk joined with `" > "` keeping only the last four segments
(`path.slice(-4)`). -/
def getSelector (e : DomElem) : String :=
  if !(e.idAttr == "") then "#" ++ escapeClassName e.idAttr
  else
    let path := buildPath e.chain []
    joinSep " > " (path.drop (path.length - 4))

/-- Specification-side `slice(-4)`: the last (at most) `n` entries. -/
def lastSegments (n : Nat) (l : List String) : List String :=
  l.drop (l.length - n)

/-- A click target as consumed by `selectElement`: its DOM identity `key`,
whether it lies inside the panel or overlay container, the keys of itself
and its DOM ancestors (for the `contains` check of focus mode), and the
data `getSelector`/`getBoundingClientRect` would report for it. -/
structure Elem where
  key : Nat
  inUI : Bool
  ancestorKeys : List Nat
  selector : String
  tagName : String
  rect : Rect
deriving DecidableEq

/-- The module-level mutable state of the content script: the annotation
list, the two label counters, the focus target, a fresh-id counter
(modelling `generateId`) and the `data-wdh-id` bindings from DOM element
keys to annotation ids. -/
structure EditorState where
  selectedElements : List SelectedElement
  nextNumber : Int
  focusedElementId : Option Nat
  focusedSubNumber : Nat
  freshId : Nat
  bindings : List (Nat × Nat)
deriving DecidableEq

/-- Observable side effects of a store operation: an overlay DOM update, a
panel re-render (`updatePanel`), a persistence write (`saveState`) or a
deletion of the persisted key (`clearState`). -/
inductive Eff where
  | overlay
  | panel
  | save
  | clearSnap
deriving DecidableEq

/-- Whether a DOM element key currently carries a `data-wdh-id` binding. -/
def keyBound (bs : List (Nat × Nat)) (k : Nat) : Bool :=
  bs.any (fun kv => kv.1 == k)

/-- The DOM element key bound to an annotation id, if any
(`document.querySelector` on the `data-wdh-id` attribute). -/
def findBinding (bs : List (Nat × Nat)) (aid : Nat) : Option Nat :=
  (bs.find? (fun kv => kv.2 == aid)).map (fun kv => kv.1)

/-- The focus-mode guard of `selectElement` (lines 450-455): when a focused
element exists in the DOM and does not contain the click target, the click
is ignored.  When the focused id has no bound DOM element the guard lets
the click through, as in the source. -/
def focusBlocked (bs : List (Nat × Nat)) (focusedElementId : Option Nat)
    (e : Elem) : Bool :=
  match focusedElementId with
  | some fid =>
    match findBinding bs fid with
    | some fk => !(e.ancestorKeys.contains fk)
    | none => false
  | none => false

/-- The tail of `selectElement` (lines 457-513): create the record with the
given label/parent, bind the DOM element, push, re-render the panel and
save.  Factored out of `selectElement` so each labelling branch shares it. -/
def pushSelected (s : EditorState) (e : Elem) (label : String)
    (parentId : Option Nat) (nextNumber : Int) (focusedSubNumber : Nat) :
    EditorState × List Eff :=
  ({ s with
      selectedElements := s.selectedElements ++
        [{ id := s.freshId
           label := label
           parentId := parentId
           selector := e.selector
           tagName := e.tagName
           color := FrameColor.red
           padding := 0
           rect := e.rect }]
      nextNumber := nextNumber
      focusedSubNumber := focusedSubNumber
      freshId := s.freshId + 1
      bindings := (e.key, s.freshId) :: s.bindings },
   [Eff.overlay, Eff.panel, Eff.save])

/-- `selectElement` (lines 438-513). -/
def selectElement (s : EditorState) (e : Elem) : EditorState × List Eff :=
  if keyBound s.bindings e.key then (s, [])
  else if e.inUI then (s, [])
  else if focusBlocked s.bindings s.focusedElementId e then (s, [])
  else
    match s.focusedElementId with
    | some fid =>
      match s.selectedElements.find? (fun a => a.id == fid) with
      | some parentElement =>
        pushSelected s e (parentElement.label ++ "-" ++ toString s.focusedSubNumber)
          (some fid) s.nextNumber (s.focusedSubNumber + 1)
      | none =>
        pushSelected s e (toString s.nextNumber) none (s.nextNumber + 1)
          s.focusedSubNumber
    | none =>
      pushSelected s e (toString s.nextNumber) none (s.nextNumber + 1)
        s.focusedSubNumber

/-- `deselectElement` (lines 516-536): unbind, drop the overlays, filter
the store, re-render the panel and save. -/
def deselectElement (s : EditorState) (id : Nat) : EditorState × List Eff :=
  ({ s with
      selectedElements := s.selectedElements.filter (fun a => a.id != id)
      bindings := s.bindings.filter (fun kv => kv.2 != id) },
   [Eff.overlay, Eff.panel, Eff.save])

/-- In-place mutation of the first annotation with the given id, as done by
the `find`-then-assign pattern of `updateLabel`/`updatePadding`/
`changeElementColor`. -/
def updateFirst : List SelectedElement → Nat →
    (SelectedElement → SelectedElement) → List SelectedElement
  | [], _, _ => []
  | a :: rest, id, f =>
    if a.id == id then f a :: rest else a :: updateFirst rest id f

/-- Common shape of `updateLabel`, `updatePadding` and
`changeElementColor`: no-op when the id is unknown, otherwise mutate the
found record in place and emit the branch's effects. -/
def mutOnFound (s : EditorState) (id : Nat)
    (f : SelectedElement → SelectedElement) (effs : List Eff) :
    EditorState × List Eff :=
  if (s.selectedElements.find? (fun a => a.id == id)).isSome then
    ({ s with selectedElements := updateFirst s.selectedElements id f }, effs)
  else (s, [])

/-- `updateLabel` (lines 539-557): mutate the label, update the badge DOM,
save.  No panel re-render. -/
def updateLabel (s : EditorState) (id : Nat) (label : String) :
    EditorState × List Eff :=
  mutOnFound s id (fun a => { a with label := label }) [Eff.overlay, Eff.save]

/-- `updatePadding` (lines 560-589): mutate the padding, update the frame
and badge DOM, save.  No panel re-render. -/
def updatePadding (s : EditorState) (id : Nat) (padding : ℚ) :
    EditorState × List Eff :=
  mutOnFound s id (fun a => { a with padding := padding }) [Eff.overlay, Eff.save]

/-- `changeElementColor` (lines 371-394): mutate the color, update the
overlays, re-render the panel, save. -/
def changeElementColor (s : EditorState) (id : Nat) (color : FrameColor) :
    EditorState × List Eff :=
  mutOnFound s id (fun a => { a with color := color })
    [Eff.overlay, Eff.panel, Eff.save]

/-- `startFocus` (lines 600-629): no-op when the id is unknown, otherwise
set the focus target and recompute the sub-counter from the children's
trailing label suffixes, re-render the panel and save. -/
def startFocus (s : EditorState) (id : Nat) : EditorState × List Eff :=
  match s.selectedElements.find? (fun a => a.id == id) with
  | none => (s, [])
  | some _ =>
    ({ s with
        focusedElementId := some id
        focusedSubNumber := maxSubNumber s.selectedElements id + 1 },
     [Eff.panel, Eff.save])

/-- `endFocus` (lines 632-645). -/
def endFocus (s : EditorState) : EditorState × List Eff :=
  ({ s with focusedElementId := none, focusedSubNumber := 1 },
   [Eff.panel, Eff.save])

/-- `clearAllSelections` (lines 897-936): in focus mode remove only the
focused id's children and reset the sub-counter, then save; otherwise
remove everything, reset all counters and focus, and delete the persisted
key (`clearState`). -/
def clearAllSelections (s : EditorState) : EditorState × List Eff :=
  match s.focusedElementId with
  | some fid =>
    let subIds := (s.selectedElements.filter
      (fun e => e.parentId == some fid)).map (fun e => e.id)
    ({ s with
        selectedElements := s.selectedElements.filter
          (fun e => e.parentId != some fid)
        focusedSubNumber := 1
        bindings := s.bindings.filter (fun kv => !(subIds.contains kv.2)) },
     [Eff.overlay, Eff.panel, Eff.save])
  | none =>
    let ids := s.selectedElements.map (fun e => e.id)
    ({ s with
        selectedElements := []
        nextNumber := 1
        focusedElementId := none
        focusedSubNumber := 1
        bindings := s.bindings.filter (fun kv => !(ids.contains kv.2)) },
     [Eff.overlay, Eff.panel, Eff.clearSnap])

/-- The store-mutating operations reachable from the panel and page. -/
inductive Op where
  | select (e : Elem)
  | deselect (id : Nat)
  | updLabel (id : Nat) (label : String)
  | updPadding (id : Nat) (padding : ℚ)
  | updColor (id : Nat) (color : FrameColor)
  | startFocus (id : Nat)
  | endFocus
  | clearAll
deriving DecidableEq

/-- Dispatch of an operation to its handler. -/
def runOp (s : EditorState) : Op → EditorState × List Eff
  | Op.select e => selectElement s e
  | Op.deselect id => deselectElement s id
  | Op.updLabel id label => updateLabel s id label
  | Op.updPadding id padding => updatePadding s id padding
  | Op.updColor id color => changeElementColor s id color
  | Op.startFocus id => startFocus s id
  | Op.endFocus => endFocus s
  | Op.clearAll => clearAllSelections s

/-- Run a sequence of operations, discarding effect traces. -/
def runOps (s : EditorState) (ops : List Op) : EditorState :=
  ops.foldl (fun s op => (runOp s op).1) s

/-- Guard on a single operation: deselect only annotations that currently
have no children, and focus only existing top-level annotations (the
panel's focus button is shown only for those). -/
def goodStep (s : EditorState) : Op → Bool
  | Op.deselect id => s.selectedElements.all (fun a => a.parentId != some id)
  | Op.startFocus id =>
    s.selectedElements.all (fun a => a.id != id || a.parentId == none)
  | _ => true

/-- `goodStep` holding at every point of a trace. -/
def goodTrace (s : EditorState) : List Op → Bool
  | [] => true
  | op :: rest => goodStep s op && goodTrace (runOp s op).1 rest

/-- The state at content-script load: empty store, counters at 1. -/
def initState : EditorState :=
  { selectedElements := []
    nextNumber := 1
    focusedElementId := none
    focusedSubNumber := 1
    freshId := 0
    bindings := [] }

/-- Uniqueness of annotation ids across the store. -/
def IdsNodup (els : List SelectedElement) : Prop :=
  (els.map (fun a => a.id)).Nodup

/-- Referential integrity of `parentId`: every non-null parent reference
names an existing top-level annotation. -/
def ParentRefsOK (els : List SelectedElement) : Prop :=
  ∀ a ∈ els, ∀ pid ∈ a.parentId,
    ∃ b ∈ els, b.id = pid ∧ b.parentId = none

instance instDecIdsNodup (els : List SelectedElement) :
    Decidable (IdsNodup els) :=
  inferInstanceAs (Decidable ((els.map (fun a : SelectedElement => a.id)).Nodup))

instance instDecParentRefsOK (els : List SelectedElement) :
    Decidable (ParentRefsOK els) :=
  inferInstanceAs (Decidable (∀ a ∈ els, ∀ pid ∈ a.parentId,
    ∃ b ∈ els, b.id = pid ∧ b.parentId = none))

/-- Every stored id is below the fresh-id counter. -/
def IdsBounded (s : EditorState) : Prop :=
  ∀ a ∈ s.selectedElements, a.id < s.freshId

/-- The focus target, when set, is a previously issued id and any
annotation carrying it is top-level. -/
def FocusOK (s : EditorState) : Prop :=
  ∀ fid ∈ s.focusedElementId,
    fid < s.freshId ∧ ∀ a ∈ s.selectedElements, a.id = fid → a.parentId = none

/-- The inductive invariant of guarded traces. -/
def StrongInv (s : EditorState) : Prop :=
  IdsNodup s.selectedElements ∧ ParentRefsOK s.selectedElements ∧
    IdsBounded s ∧ FocusOK s

/-- The persisted snapshot (`SavedState` interface, lines 24-29). -/
structure SavedState where
  elements : List SelectedElement
  nextNumber : Int
  focusedElementId : Option Nat
  focusedSubNumber : Nat
deriving DecidableEq

/-- The snapshot written by `saveState` (lines 32-44). -/
def snapshotOf (s : EditorState) : SavedState :=
  { elements := s.selectedElements
    nextNumber := s.nextNumber
    focusedElementId := s.focusedElementId
    focusedSubNumber := s.focusedSubNumber }

/-- Replay of an effect trace on the per-URL `localStorage` cell:
`saveState` overwrites it with the snapshot of the resulting state,
`clearState` removes the key. -/
def applyEffs (store0 : Option SavedState) (s : EditorState)
    (effs : List Eff) : Option SavedState :=
  effs.foldl
    (fun cell e =>
      match e with
      | Eff.save => some (snapshotOf s)
      | Eff.clearSnap => none
      | _ => cell)
    store0

/-- The parsed JSON object read back by `loadState`, each field possibly
absent (or JSON `null`, which JavaScript truthiness treats the same way). -/
structure RawState where
  elements : Option (List SelectedElement)
  nextNumber : Option Int
  focusedElementId : Option Nat
  focusedSubNumber : Option Nat
deriving DecidableEq

/-- JavaScript `x || d` on an optional number: absent or 0 yields the
default. -/
def jsOrInt (v : Option Int) (d : Int) : Int :=
  match v with
  | none => d
  | some n => if n == 0 then d else n

/-- JavaScript `x || d` on an optional natural number. -/
def jsOrNat (v : Option Nat) (d : Nat) : Nat :=
  match v with
  | none => d
  | some n => if n == 0 then d else n

/-- `loadState` (lines 47-64).  The outer `none` models a missing key, an
`Except.error` a `JSON.parse` failure caught by the `try`; both yield
`null`.  A parsed object is normalised with the legacy-compatibility
defaults of lines 53-58. -/
def loadState (stored : Option (Except Unit RawState)) : Option SavedState :=
  match stored with
  | none => none
  | some (Except.error _) => none
  | some (Except.ok parsed) =>
    some
      { elements := parsed.elements.getD []
        nextNumber := jsOrInt parsed.nextNumber 1
        focusedElementId := parsed.focusedElementId
        focusedSubNumber := jsOrNat parsed.focusedSubNumber 1 }

/-- The live document as seen by `restoreElements`: selector resolution
(`document.querySelector`), current bounding boxes, and any `data-wdh-id`
attributes present before the restore, all as association lists on DOM
element keys. -/
structure RestoreEnv where
  resolve : List (String × Nat)
  rects : List (Nat × Rect)
  initialWdh : List (Nat × Nat)
deriving DecidableEq

/-- The running state of a restore pass: the `usedElements` set, the
`data-wdh-id` writes made so far, and the annotations restored so far. -/
structure RestoreState where
  used : List Nat
  wdh : List (Nat × Nat)
  restored : List SelectedElement
deriving DecidableEq

/-- `document.querySelector(savedEl.selector)` against the environment. -/
def resolveSel (env : RestoreEnv) (sel : String) : Option Nat :=
  (env.resolve.find? (fun p => p.1 == sel)).map (fun p => p.2)

/-- The `data-wdh-id` currently on element `k`: a write made during this
restore pass, or else the attribute the document started with. -/
def wdhOf (env : RestoreEnv) (st : RestoreState) (k : Nat) : Option Nat :=
  match (st.wdh.find? (fun p => p.1 == k)).map (fun p => p.2) with
  | some v => some v
  | none => (env.initialWdh.find? (fun p => p.1 == k)).map (fun p => p.2)

/-- The third skip condition of `restoreElements` (line 330): the element
already carries a `data-wdh-id` different from the entry's own id. -/
def wdhConflict (env : RestoreEnv) (st : RestoreState) (k : Nat)
    (eid : Nat) : Bool :=
  match wdhOf env st k with
  | some v => v != eid
  | none => false

/-- The disjunction of the three skip conditions of `restoreElements`
(lines 317-333): the selector fails to resolve, resolves to an element
already claimed in this pass, or resolves to an element whose current
marker id differs from the entry's. -/
def skipsEntry (env : RestoreEnv) (st : RestoreState)
    (e : SelectedElement) : Bool :=
  match resolveSel env e.selector with
  | none => true
  | some k => st.used.contains k || wdhConflict env st k e.id

/-- The live bounding box of element `k`. -/
def rectOf (env : RestoreEnv) (k : Nat) : Rect :=
  ((env.rects.find? (fun p => p.1 == k)).map (fun p => p.2)).getD
    { top := 0, left := 0, width := 0, height := 0 }

/-- One iteration of the `savedElements.forEach` of `restoreElements`
(lines 315-367): resolve the selector, apply the three skip conditions
(warn-and-return in the source), otherwise claim the element, write its
marker id, and push the entry with its freshly measured rect. -/
def restoreStep (env : RestoreEnv) (st : RestoreState)
    (savedEl : SelectedElement) : RestoreState :=
  match resolveSel env savedEl.selector with
  | none => st
  | some k =>
    if st.used.contains k then st
    else if wdhConflict env st k savedEl.id then st
    else
      { used := k :: st.used
        wdh := (k, savedEl.id) :: st.wdh
        restored := st.restored ++ [{ savedEl with rect := rectOf env k }] }

/-- `restoreElements` (lines 311-368). -/
def restoreElements (env : RestoreEnv) (saved : List SelectedElement) :
    RestoreState :=
  saved.foldl (restoreStep env) { used := [], wdh := [], restored := [] }

/-- The state produced by `startEditing` (lines 1285-1344) from a loaded
snapshot and the live document, starting from the cleared store left by
`stopEditing`.  With a non-empty snapshot the saved `nextNumber` and
`focusedSubNumber` are discarded: both counters are recomputed from the
labels of the successfully restored annotations (lines 1301-1329).  The
fresh-id counter continues above every restored id. -/
def startEditingState (saved : Option SavedState) (env : RestoreEnv) :
    EditorState :=
  match saved with
  | none => initState
  | some st =>
    if st.elements.length > 0 then
      let rs := restoreElements env st.elements
      let parentElements := rs.restored.filter (fun e => e.parentId == none)
      let maxNumber := foldMaxOptInt (fun el => parseIntJS el.label) parentElements
      let focusedSubNumber :=
        match st.focusedElementId with
        | some fid =>
          foldMaxOpt (fun el => trailingSubNumber el.label)
            (rs.restored.filter (fun e => e.parentId == some fid)) + 1
        | none => 1
      { selectedElements := rs.restored
        nextNumber := maxNumber + 1
        focusedElementId := st.focusedElementId
        focusedSubNumber := focusedSubNumber
        freshId := (rs.restored.map (fun a => a.id)).foldr max 0 + 1
        bindings := rs.wdh }
    else initState

/-- Whether an operation's source re-renders the panel (`updatePanel`):
every mutating handler does except `updateLabel` and `updatePadding`. -/
def rendersPanel : Op → Bool
  | Op.updLabel _ _ => false
  | Op.updPadding _ _ => false
  | _ => true

/-- A zero rectangle for concrete test states. -/
def rect0 : Rect := { top := 0, left := 0, width := 0, height := 0 }

/-- Concrete page element used as the first click target in traces. -/
def elemA : Elem :=
  { key := 0, inUI := false, ancestorKeys := [0], selector := "main > div",
    tagName := "div", rect := rect0 }

/-- Concrete page element nested inside `elemA` (its ancestor keys include
`elemA`'s key), used as a sub-element click target. -/
def elemB : Elem :=
  { key := 1, inUI := false, ancestorKeys := [1, 0],
    selector := "main > div > span", tagName := "span", rect := rect0 }

/-- Guarded trace: select a parent, focus it, select a child, then deselect
the child (which has no children of its own). -/
def opsGoodC1 : List Op :=
  [Op.select elemA, Op.startFocus 0, Op.select elemB, Op.deselect 1]

/-- Unguarded trace: select a parent, focus it, select a child, then
deselect the parent, orphaning the child. -/
def opsBadC1 : List Op :=
  [Op.select elemA, Op.startFocus 0, Op.select elemB, Op.deselect 0]

/-- A one-annotation store used by the C3 counterexample and witness. -/
def stateC3 : EditorState :=
  { selectedElements :=
      [{ id := 0, label := "1", parentId := none, selector := "main > div",
         tagName := "div", color := FrameColor.red, padding := 0,
         rect := rect0 }]
    nextNumber := 2
    focusedElementId := none
    focusedSubNumber := 1
    freshId := 1
    bindings := [(0, 0)] }

/-- The annotation found by `find?` in the C4 witness store. -/
def parentC4 : SelectedElement :=
  { id := 0, label := "7", parentId := none, selector := "section",
    tagName := "section", color := FrameColor.red, padding := 0,
    rect := rect0 }

/-- A store holding one bound top-level annotation, for the C4 witness. -/
def stateC4 : EditorState :=
  { selectedElements := [parentC4]
    nextNumber := 2
    focusedElementId := none
    focusedSubNumber := 1
    freshId := 1
    bindings := [(5, 0)] }

/-- A click target inside the C4 witness's focused element (DOM key 5). -/
def elemC4 : Elem :=
  { key := 6, inUI := false, ancestorKeys := [6, 5], selector := "section > p",
    tagName := "p", rect := rect0 }

/-- Sibling list for the C7 counterexample: the element (a `div` with class
`uniq`) and one further `div` sibling with a different class, so tag+class
already identifies the element uniquely among its siblings. -/
def childrenC7 : List DomChild :=
  [{ tag := "DIV", className := "uniq", isSelf := true },
   { tag := "DIV", className := "other", isSelf := false }]

/-- The C7 counterexample element: no id attribute, one-node chain. -/
def elemC7 : DomElem :=
  { idAttr := ""
    chain := [{ tagName := "DIV", className := "uniq",
                parentChildren := some childrenC7 }] }

/-- Restore environment for the C8 witness: one resolvable selector. -/
def envC8 : RestoreEnv :=
  { resolve := [("main > p", 10)]
    rects := [(10, { top := 1, left := 2, width := 3, height := 4 })]
    initialWdh := [] }

/-- A saved entry whose selector no longer resolves (C8 witness). -/
def missingEntryC8 : SelectedElement :=
  { id := 0, label := "1", parentId := none, selector := "main > nav",
    tagName := "nav", color := FrameColor.red, padding := 0, rect := rect0 }

/-- The remaining entries of the C8 witness restore. -/
def restEntriesC8 : List SelectedElement :=
  [{ id := 1, label := "2", parentId := none, selector := "main > p",
     tagName := "p", color := FrameColor.blue, padding := 2, rect := rect0 }]

/-- A parsed snapshot object with every field absent (C9 witness). -/
def rawEmpty : RawState :=
  { elements := none, nextNumber := none, focusedElementId := none,
    focusedSubNumber := none }

/-- Snapshot for the C10 witness: a parent labelled "3", a child labelled
"3-2", focus on the parent, and stale saved counters (99 and 42). -/
def savedC10 : SavedState :=
  { elements :=
      [{ id := 0, label := "3", parentId := none, selector := "main > div",
         tagName := "div", color := FrameColor.red, padding := 0,
         rect := rect0 },
       { id := 1, label := "3-2", parentId := some 0,
         selector := "main > div > span", tagName := "span",
         color := FrameColor.green, padding := 0, rect := rect0 }]
    nextNumber := 99
    focusedElementId := some 0
    focusedSubNumber := 42 }

/-- Restore environment for the C10 witness: both selectors resolve. -/
def envC10 : RestoreEnv :=
  { resolve := [("main > div", 100), ("main > div > span", 101)]
    rects := []
    initialWdh := [] }

theorem foldl_max_opt_acc {α : Type} (g : α → Option Nat) :
    ∀ (l : List α) (acc : Nat),
      l.foldl
          (fun mx x =>
            match g x with
            | some n => max mx n
            | none => mx) acc
        = max acc ((l.filterMap g).foldr max 0)
  | [], acc => by simp
  | x :: l, acc => by
    cases hg : g x with
    | none =>
      simp [List.foldl_cons, hg, List.filterMap_cons,
        foldl_max_opt_acc g l acc]
    | some n =>
      simp [List.foldl_cons, hg, List.filterMap_cons,
        foldl_max_opt_acc g l (max acc n), Nat.max_assoc]

theorem foldMaxOpt_eq_spec {α : Type} (g : α → Option Nat) (l : List α) :
    foldMaxOpt g l = (l.filterMap g).foldr max 0 := by
  unfold foldMaxOpt
  rw [foldl_max_opt_acc]
  simp

theorem foldr_max_nonneg : ∀ l : List Int, 0 ≤ l.foldr max 0
  | [] => le_refl 0
  | x :: l => le_trans (foldr_max_nonneg l) (le_max_right x _)

theorem foldl_max_opt_int_acc {α : Type} (g : α → Option Int) :
    ∀ (l : List α) (acc : Int), 0 ≤ acc →
      l.foldl
          (fun mx x =>
            match g x with
            | some n => max mx n
            | none => mx) acc
        = max acc ((l.filterMap g).foldr max 0)
  | [], acc, hacc => by
    simp only [List.foldl_nil, List.filterMap_nil, List.foldr_nil]
    exact (max_eq_left hacc).symm
  | x :: l, acc, hacc => by
    cases hg : g x with
    | none =>
      simp [List.foldl_cons, hg, List.filterMap_cons,
        foldl_max_opt_int_acc g l acc hacc]
    | some n =>
      have hacc2 : (0 : Int) ≤ max acc n := le_trans hacc (le_max_left acc n)
      simp [List.foldl_cons, hg, List.filterMap_cons,
        foldl_max_opt_int_acc g l (max acc n) hacc2, max_assoc]

theorem foldMaxOptInt_eq_spec {α : Type} (g : α → Option Int) (l : List α) :
    foldMaxOptInt g l = (l.filterMap g).foldr max 0 := by
  unfold foldMaxOptInt
  rw [foldl_max_opt_int_acc g l 0 (le_refl 0)]
  exact max_eq_right (foldr_max_nonneg _)

theorem filterMap_map_comp {α β γ : Type} (f : α → β) (g : β → Option γ) :
    ∀ l : List α, (l.map f).filterMap g = l.filterMap (fun a => g (f a))
  | [] => rfl
  | x :: l => by
    cases hg : g (f x) with
    | none =>
      simp [List.map_cons, List.filterMap_cons, hg, filterMap_map_comp f g l]
    | some y =>
      simp [List.map_cons, List.filterMap_cons, hg, filterMap_map_comp f g l]

theorem maxSubNumber_eq_spec (els : List SelectedElement) (pid : Nat) :
    maxSubNumber els pid = specMaxSubNumber els pid := by
  unfold maxSubNumber specMaxSubNumber
  rw [foldMaxOpt_eq_spec, filterMap_map_comp]

/-- C2: on a 100-by-50 box, `createFrameOverlay` (and
`updateOverlayPositions`) produce the claimed 120-by-70 frame at offset
-13, but the style written by `updatePadding` on the same stored rect sets
the content-box width/height to 126-by-76 (`rect.width + borderWidth * 2 +
padding * 2`), contradicting the claimed `width + 2 * padding` sizing. -/
theorem c2_updatePadding_eval :
    frameOverlayBox 0 0 100 50 10 =
      { top := -13, left := -13, width := 120, height := 70 } ∧
    updatePaddingFrameStyle
        { top := 0, left := 0, width := 100, height := 50 } 10 =
      { top := -13, left := -13, width := 126, height := 76 } ∧
    ¬ (updatePaddingFrameStyle
        { top := 0, left := 0, width := 100, height := 50 } 10).width = 120 := by
  refine ⟨?_, ?_, ?_⟩ <;>
    simp [frameOverlayBox, updatePaddingFrameStyle, borderWidth,
      Box.mk.injEq] <;> norm_num

/-- C6: badge width is 28 for the two-character label "12" and 62 for the
five-character label "100-3", follows the `len <= 2 ? 28 : max(28,
len*10+12)` rule in general, the badge is 28 pixels high, and its centre
point coincides with the frame box's top-left corner (element top-left
minus padding minus the 3px border in both axes). -/
theorem c6_badge_geometry :
    calculateBadgeWidth "12" = 28 ∧
    calculateBadgeWidth "100-3" = 62 ∧
    (∀ label : String,
      calculateBadgeWidth label =
        if label.length ≤ 2 then 28 else max 28 (label.length * 10 + 12)) ∧
    (∀ (label : String) (top left padding : ℚ),
      (badgeBox label top left padding).height = 28) ∧
    (∀ (label : String) (top left padding w h : ℚ),
      (badgeBox label top left padding).left
          + (badgeBox label top left padding).width / 2
          = (frameOverlayBox top left w h padding).left ∧
      (badgeBox label top left padding).top
          + (badgeBox label top left padding).height / 2
          = (frameOverlayBox top left w h padding).top) := by
  refine ⟨by decide, by decide, fun label => rfl, fun label top left padding => rfl,
    fun label top left padding w h => ⟨?_, ?_⟩⟩ <;>
    simp [badgeBox, frameOverlayBox, borderWidth] <;> ring

/-- C9: `loadState` substitutes the documented defaults for missing
snapshot fields (empty list, 1, null, 1), never fails on a parsed object,
and yields null both for a missing key and for an unparsable stored
value. -/
theorem c9_load_tolerates :
    loadState none = none ∧
    (∀ err : Unit, loadState (some (Except.error err)) = none) ∧
    (∀ raw : RawState,
      (loadState (some (Except.ok raw))).isSome = true ∧
      (raw.elements = none →
        (loadState (some (Except.ok raw))).map (fun st => st.elements)
          = some []) ∧
      (raw.nextNumber = none →
        (loadState (some (Except.ok raw))).map (fun st => st.nextNumber)
          = some 1) ∧
      (raw.focusedElementId = none →
        (loadState (some (Except.ok raw))).map (fun st => st.focusedElementId)
          = some none) ∧
      (raw.focusedSubNumber = none →
        (loadState (some (Except.ok raw))).map (fun st => st.focusedSubNumber)
          = some 1)) := by
  refine ⟨rfl, fun _ => rfl, fun raw => ⟨rfl, ?_, ?_, ?_, ?_⟩⟩ <;>
    intro h <;> simp [loadState, h, jsOrInt, jsOrNat]

/-- C9 witness: a snapshot object with every field absent loads with all
four defaults. -/
theorem c9_load_tolerates_witness :
    rawEmpty.elements = none ∧ rawEmpty.nextNumber = none ∧
    rawEmpty.focusedElementId = none ∧ rawEmpty.focusedSubNumber = none ∧
    (loadState (some (Except.ok rawEmpty))).map (fun st => st.elements)
      = some [] ∧
    (loadState (some (Except.ok rawEmpty))).map (fun st => st.nextNumber)
      = some 1 ∧
    (loadState (some (Except.ok rawEmpty))).map (fun st => st.focusedElementId)
      = some none ∧
    (loadState (some (Except.ok rawEmpty))).map (fun st => st.focusedSubNumber)
      = some 1 :=
  ⟨rfl, rfl, rfl, rfl,
    (c9_load_tolerates.2.2 rawEmpty).2.1 rfl,
    (c9_load_tolerates.2.2 rawEmpty).2.2.1 rfl,
    (c9_load_tolerates.2.2 rawEmpty).2.2.2.1 rfl,
    (c9_load_tolerates.2.2 rawEmpty).2.2.2.2 rfl⟩

/-- C5: clearing in focus mode removes exactly the focused id's children,
resets the sub-counter to 1, keeps the focused parent, the other
annotations and the top-level counter, and overwrites (rather than
deletes) the persisted snapshot; clearing outside focus mode empties the
store, resets every counter and the focus state, and deletes the persisted
key instead of writing an empty snapshot. -/
theorem c5_clear_scopes (s : EditorState) (store0 : Option SavedState) :
    match s.focusedElementId with
    | some fid =>
      (clearAllSelections s).1.selectedElements
          = s.selectedElements.filter (fun e => e.parentId != some fid) ∧
      (clearAllSelections s).1.focusedSubNumber = 1 ∧
      (clearAllSelections s).1.focusedElementId = some fid ∧
      (clearAllSelections s).1.nextNumber = s.nextNumber ∧
      applyEffs store0 (clearAllSelections s).1 (clearAllSelections s).2
          = some (snapshotOf (clearAllSelections s).1)
    | none =>
      (clearAllSelections s).1.selectedElements = [] ∧
      (clearAllSelections s).1.nextNumber = 1 ∧
      (clearAllSelections s).1.focusedElementId = none ∧
      (clearAllSelections s).1.focusedSubNumber = 1 ∧
      applyEffs store0 (clearAllSelections s).1 (clearAllSelections s).2
          = none := by
  cases h : s.focusedElementId with
  | some fid =>
    simp only [h]
    refine ⟨?_, ?_, ?_, ?_, ?_⟩ <;> simp [clearAllSelections, h, applyEffs]
  | none =>
    simp only [h]
    refine ⟨?_, ?_, ?_, ?_, ?_⟩ <;> simp [clearAllSelections, h, applyEffs]

/-- C8: any saved entry hitting one of the three skip conditions — a
selector that fails to resolve, an element already claimed in this restore
pass, or an element carrying a different marker id — leaves the restore
state unchanged, so the remaining entries are restored exactly as if the
skipped entry were absent, and no skipped entry aborts the pass. -/
theorem c8_restore_skips (env : RestoreEnv) (st : RestoreState)
    (e : SelectedElement) (rest : List SelectedElement)
    (h : skipsEntry env st e = true) :
    (e :: rest).foldl (restoreStep env) st
      = rest.foldl (restoreStep env) st := by
  have hstep : restoreStep env st e = st := by
    unfold skipsEntry at h
    unfold restoreStep
    split
    next => rfl
    next k heq =>
      rw [heq] at h
      simp only [Bool.or_eq_true] at h
      split
      next => rfl
      next hku =>
        split
        next => rfl
        next hkc =>
          rcases h with h1 | h2
          · exact absurd h1 hku
          · exact absurd h2 hkc
  rw [List.foldl_cons, hstep]

/-- C8 witness: an entry with an unresolvable selector is skipped while
the following entry still restores. -/
theorem c8_restore_skips_witness :
    skipsEntry envC8 { used := [], wdh := [], restored := [] }
        missingEntryC8 = true ∧
    (missingEntryC8 :: restEntriesC8).foldl (restoreStep envC8)
        { used := [], wdh := [], restored := [] }
      = restEntriesC8.foldl (restoreStep envC8)
        { used := [], wdh := [], restored := [] } :=
  ⟨by decide,
   c8_restore_skips envC8 { used := [], wdh := [], restored := [] }
     missingEntryC8 restEntriesC8 (by decide)⟩

theorem buildPath_eq :
    ∀ (l : List DomNode) (acc : List String),
      buildPath l acc = (l.map segmentOf).reverse ++ acc
  | [], acc => by simp [buildPath]
  | n :: l, acc => by
    simp [buildPath, buildPath_eq l (segmentOf n :: acc)]

theorem sameTagPosition_fst_aux (tag : String) :
    ∀ (children : List DomChild) (acc : Nat × Nat),
      (children.foldl
          (fun acc child =>
            if child.tag == tag then
              (acc.1 + 1, if child.isSelf then acc.1 + 1 else acc.2)
            else acc)
          acc).1
        = acc.1 + (children.filter (fun c => c.tag == tag)).length
  | [], acc => by simp
  | c :: l, acc => by
    cases hc : c.tag == tag with
    | true =>
      simp only [List.foldl_cons, List.filter_cons, hc, if_true,
        List.length_cons, sameTagPosition_fst_aux tag l]
      omega
    | false =>
      simp only [List.foldl_cons, List.filter_cons, hc,
        Bool.false_eq_true, if_false, sameTagPosition_fst_aux tag l]

theorem sameTagPosition_fst (tag : String) (children : List DomChild) :
    (sameTagPosition tag children).1
      = (children.filter (fun c => c.tag == tag)).length := by
  unfold sameTagPosition
  rw [sameTagPosition_fst_aux]
  simp

/-- C7 counterexample: a `div` whose class already distinguishes it from
its single same-tag sibling.  The claim predicts no `:nth-of-type` suffix
(the element is uniquely identified by tag+class alone), but `getSelector`
appends one whenever more than one sibling shares the tag. -/
theorem c7_counterexample :
    getSelector elemC7 = "div.uniq:nth-of-type(1)" ∧
    (childrenC7.filter
        (fun c => c.tag == "DIV" && c.className == "uniq")).length = 1 := by
  constructor
  · decide
  · decide

/-- C7 amended: with a non-empty id attribute the selector is the escaped
`#id`; otherwise it is the ancestor segments (in outermost-first order,
keeping only the last four) joined with `" > "`, which is empty for the
body element itself; and the `:nth-of-type` suffix of a segment is
governed solely by the count of same-tag siblings being greater than one
(the first component of `sameTagPosition`), irrespective of class
uniqueness. -/
theorem c7_selector_amended :
    (∀ e : DomElem,
      getSelector e =
        if e.idAttr = "" then
          joinSep " > " (lastSegments 4 ((e.chain.map segmentOf).reverse))
        else "#" ++ escapeClassName e.idAttr) ∧
    getSelector { idAttr := "", chain := [] } = "" ∧
    (∀ (tag : String) (children : List DomChild),
      (sameTagPosition tag children).1
        = (children.filter (fun c => c.tag == tag)).length) := by
  refine ⟨?_, rfl, sameTagPosition_fst⟩
  intro e
  by_cases h : e.idAttr = ""
  · simp [getSelector, h, lastSegments, buildPath_eq]
  · simp [getSelector, h, lastSegments]

/-- C3 counterexample: `updateLabel` on an existing annotation mutates the
store and writes persistence, but emits no panel re-render, contradicting
the claim that every store mutation is followed by a panel re-render. -/
theorem c3_counterexample :
    (runOp stateC3 (Op.updLabel 0 "renamed")).1 ≠ stateC3 ∧
    Eff.save ∈ (runOp stateC3 (Op.updLabel 0 "renamed")).2 ∧
    Eff.panel ∉ (runOp stateC3 (Op.updLabel 0 "renamed")).2 := by
  refine ⟨by decide, by decide, by decide⟩

/-- C3 amended: every operation that actually changes the store is
synchronously concluded by a persistence effect (a `saveState` write, or
the `clearState` deletion for the full clear); all such operations except
`updateLabel` and `updatePadding` also emit a panel re-render (those two
update only the overlay DOM). -/
theorem c3_mutations_persist (s : EditorState) (op : Op)
    (h : (runOp s op).1 ≠ s) :
    ((runOp s op).2.getLast? = some Eff.save ∨
      (runOp s op).2.getLast? = some Eff.clearSnap) ∧
    (rendersPanel op = true → Eff.panel ∈ (runOp s op).2) := by
  cases op with
  | select e =>
    simp only [runOp, selectElement] at h ⊢
    split_ifs at h ⊢ with h1 h2 h3
    · exact absurd rfl h
    · exact absurd rfl h
    · exact absurd rfl h
    · cases hf : s.focusedElementId with
      | none => simp [hf, pushSelected, rendersPanel]
      | some fid =>
        cases hp : s.selectedElements.find? (fun a => a.id == fid) with
        | none => simp [hf, hp, pushSelected, rendersPanel]
        | some p => simp [hf, hp, pushSelected, rendersPanel]
  | deselect id =>
    simp [runOp, deselectElement, rendersPanel]
  | updLabel id label =>
    simp only [runOp, updateLabel, mutOnFound] at h ⊢
    split_ifs at h ⊢ with h1
    · simp [rendersPanel]
    · exact absurd rfl h
  | updPadding id padding =>
    simp only [runOp, updatePadding, mutOnFound] at h ⊢
    split_ifs at h ⊢ with h1
    · simp [rendersPanel]
    · exact absurd rfl h
  | updColor id color =>
    simp only [runOp, changeElementColor, mutOnFound] at h ⊢
    split_ifs at h ⊢ with h1
    · simp [rendersPanel]
    · exact absurd rfl h
  | startFocus id =>
    simp only [runOp, startFocus] at h ⊢
    cases hp : s.selectedElements.find? (fun a => a.id == id) with
    | none => rw [hp] at h; exact absurd rfl h
    | some p => simp [hp, rendersPanel]
  | endFocus =>
    simp [runOp, endFocus, rendersPanel]
  | clearAll =>
    simp only [runOp, clearAllSelections] at h ⊢
    cases hf : s.focusedElementId with
    | none => simp [hf, rendersPanel]
    | some fid => simp [hf, rendersPanel]

/-- C3 witness: deselecting the annotation of a one-element store is a
real mutation whose effect trace ends in a save and contains a panel
re-render. -/
theorem c3_mutations_persist_witness :
    (runOp stateC3 (Op.deselect 0)).1 ≠ stateC3 ∧
    rendersPanel (Op.deselect 0) = true ∧
    ((runOp stateC3 (Op.deselect 0)).2.getLast? = some Eff.save ∨
      (runOp stateC3 (Op.deselect 0)).2.getLast? = some Eff.clearSnap) ∧
    Eff.panel ∈ (runOp stateC3 (Op.deselect 0)).2 := by
  refine ⟨by decide, by decide, ?_, ?_⟩
  · exact (c3_mutations_persist stateC3 (Op.deselect 0) (by decide)).1
  · exact (c3_mutations_persist stateC3 (Op.deselect 0) (by decide)).2 (by decide)

/-- C4: for an annotation id present in the store, `startFocus` sets the
focus target to that id and the sub-counter to one more than the maximum
trailing dash-number suffix among the labels of its children (suffix-free
labels contributing 0, so the counter starts at 1 with no children); a
subsequent `selectElement` that passes the binding, UI and containment
guards appends exactly one annotation labelled
`parentLabel-focusedSubNumber` with `parentId` the focused id, and bumps
the sub-counter by one. -/
theorem c4_focus_then_select (s : EditorState) (id : Nat)
    (p : SelectedElement) (e : Elem)
    (hp : s.selectedElements.find? (fun a => a.id == id) = some p)
    (hkey : keyBound s.bindings e.key = false)
    (hui : e.inUI = false)
    (hfb : focusBlocked s.bindings (some id) e = false) :
    ((startFocus s id).1).focusedElementId = some id ∧
    ((startFocus s id).1).focusedSubNumber
        = specMaxSubNumber s.selectedElements id + 1 ∧
    (∃ a : SelectedElement,
      (selectElement (startFocus s id).1 e).1.selectedElements
          = ((startFocus s id).1).selectedElements ++ [a] ∧
      a.label = p.label ++ "-"
          ++ toString (((startFocus s id).1).focusedSubNumber) ∧
      a.parentId = some id) ∧
    (selectElement (startFocus s id).1 e).1.focusedSubNumber
        = ((startFocus s id).1).focusedSubNumber + 1 := by
  have hs1 : (startFocus s id).1 =
      { s with
          focusedElementId := some id
          focusedSubNumber := maxSubNumber s.selectedElements id + 1 } := by
    unfold startFocus
    rw [hp]
  rw [hs1]
  refine ⟨rfl, by simp [maxSubNumber_eq_spec], ?_, ?_⟩ <;>
    simp only [selectElement, hkey, hui, Bool.false_eq_true, if_false] <;>
    rw [if_neg (by simp [hfb])] <;>
    simp only [hp, pushSelected] <;>
    simp

/-- C4 witness: focusing the annotation labelled "7" (no children, so the
sub-counter becomes 1) and selecting inside it produces the label "7-1"
with the focused id as parent. -/
theorem c4_focus_then_select_witness :
    stateC4.selectedElements.find? (fun a => a.id == 0) = some parentC4 ∧
    ((startFocus stateC4 0).1).focusedSubNumber
        = specMaxSubNumber stateC4.selectedElements 0 + 1 ∧
    (∃ a : SelectedElement,
      (selectElement (startFocus stateC4 0).1 elemC4).1.selectedElements
          = ((startFocus stateC4 0).1).selectedElements ++ [a] ∧
      a.label = parentC4.label ++ "-"
          ++ toString (((startFocus stateC4 0).1).focusedSubNumber) ∧
      a.parentId = some 0) := by
  have h := c4_focus_then_select stateC4 0 parentC4 elemC4 (by decide)
    (by decide) (by decide) (by decide)
  exact ⟨by decide, h.2.1, h.2.2.1⟩

/-- C10: when `startEditing` restores a non-empty snapshot, the saved
`nextNumber` is ignored — the counter becomes one plus the maximum
(0-floored) integer parse over the labels of the restored top-level
annotations — and with a restored focus target the saved
`focusedSubNumber` is likewise ignored in favour of one plus the maximum
trailing dash-number suffix among the restored children of that target. -/
theorem c10_counters_recomputed (saved : SavedState) (env : RestoreEnv)
    (hne : saved.elements ≠ []) :
    (startEditingState (some saved) env).nextNumber
        = specMaxLabelInt
            (((restoreElements env saved.elements).restored.filter
              (fun e => e.parentId == none)).map (fun e => e.label)) + 1 ∧
    (∀ n : Int,
      startEditingState (some { saved with nextNumber := n }) env
        = startEditingState (some saved) env) ∧
    (∀ fid : Nat, saved.focusedElementId = some fid →
      (startEditingState (some saved) env).focusedSubNumber
        = specMaxSubNumber (restoreElements env saved.elements).restored fid
            + 1) ∧
    (∀ m : Nat,
      startEditingState (some { saved with focusedSubNumber := m }) env
        = startEditingState (some saved) env) := by
  have hlen : saved.elements.length > 0 := List.length_pos.mpr hne
  refine ⟨?_, fun n => rfl, ?_, fun m => rfl⟩
  · simp only [startEditingState, if_pos hlen]
    rw [foldMaxOptInt_eq_spec]
    unfold specMaxLabelInt
    rw [filterMap_map_comp]
  · intro fid hf
    simp only [startEditingState, if_pos hlen, hf]
    rw [← maxSubNumber_eq_spec]
    rfl

/-- C10 witness: restoring a snapshot holding a parent "3" with child
"3-2", focus on the parent, and stale counters 99/42 yields
`nextNumber = 4` and `focusedSubNumber = 3`. -/
theorem c10_counters_recomputed_witness :
    savedC10.elements ≠ [] ∧
    savedC10.focusedElementId = some 0 ∧
    (startEditingState (some savedC10) envC10).nextNumber
        = specMaxLabelInt
            (((restoreElements envC10 savedC10.elements).restored.filter
              (fun e => e.parentId == none)).map (fun e => e.label)) + 1 ∧
    (startEditingState (some savedC10) envC10).focusedSubNumber
        = specMaxSubNumber (restoreElements envC10 savedC10.elements).restored 0
            + 1 := by
  have h := c10_counters_recomputed savedC10 envC10 (by decide)
  exact ⟨by decide, by decide, h.1, h.2.2.1 0 (by decide)⟩

theorem idsNodup_filter (els : List SelectedElement)
    (p : SelectedElement → Bool) (h : IdsNodup els) :
    IdsNodup (els.filter p) :=
  List.Nodup.sublist (List.Sublist.map _ (List.filter_sublist els)) h

theorem parentRefsOK_filter (p : SelectedElement → Bool)
    {els : List SelectedElement} (h : ParentRefsOK els)
    (hb : ∀ a ∈ els, ∀ pid ∈ a.parentId,
      ∀ b ∈ els, b.id = pid → b.parentId = none → p b = true) :
    ParentRefsOK (els.filter p) := by
  intro a ha pid hpid
  have ha2 := List.mem_of_mem_filter ha
  obtain ⟨b, hbm, hbid, hbn⟩ := h a ha2 pid hpid
  exact ⟨b, List.mem_filter.mpr ⟨hbm, hb a ha2 pid hpid b hbm hbid hbn⟩,
    hbid, hbn⟩

theorem idsNodup_append_fresh (els : List SelectedElement)
    (a : SelectedElement) (h : IdsNodup els)
    (hb : ∀ b ∈ els, b.id ≠ a.id) : IdsNodup (els ++ [a]) := by
  unfold IdsNodup at *
  rw [List.map_append]
  apply List.Nodup.append h (List.nodup_singleton _)
  intro x hx hy
  simp only [List.map_cons, List.map_nil, List.mem_singleton] at hy
  obtain ⟨b, hbm, rfl⟩ := List.mem_map.mp hx
  exact hb b hbm hy

theorem parentRefsOK_append {els : List SelectedElement}
    {a : SelectedElement} (h : ParentRefsOK els)
    (ha : ∀ pid ∈ a.parentId, ∃ b ∈ els, b.id = pid ∧ b.parentId = none) :
    ParentRefsOK (els ++ [a]) := by
  intro x hx pid hpid
  rcases List.mem_append.mp hx with hxe | hxa
  · obtain ⟨b, hbm, hbi, hbn⟩ := h x hxe pid hpid
    exact ⟨b, List.mem_append_left _ hbm, hbi, hbn⟩
  · have hxa2 : x = a := by simpa using hxa
    subst hxa2
    obtain ⟨b, hbm, hbi, hbn⟩ := ha pid hpid
    exact ⟨b, List.mem_append_left _ hbm, hbi, hbn⟩

theorem updateFirst_map_eq {β : Type} {g : SelectedElement → β}
    (f : SelectedElement → SelectedElement) (hg : ∀ a, g (f a) = g a) :
    ∀ (l : List SelectedElement) (id : Nat),
      (updateFirst l id f).map g = l.map g
  | [], id => rfl
  | a :: rest, id => by
    by_cases ha : (a.id == id) = true
    · simp [updateFirst, ha, hg a]
    · simp [updateFirst, ha, updateFirst_map_eq f hg rest id]

theorem mem_updateFirst (f : SelectedElement → SelectedElement) :
    ∀ {l : List SelectedElement} {id : Nat} {x : SelectedElement},
      x ∈ updateFirst l id f → x ∈ l ∨ ∃ a ∈ l, x = f a := by
  intro l
  induction l with
  | nil => intro id x hx; exact absurd hx (by simp [updateFirst])
  | cons a rest ih =>
    intro id x hx
    by_cases ha : (a.id == id) = true
    · rw [updateFirst, if_pos ha] at hx
      rcases List.mem_cons.mp hx with hx1 | hx2
      · exact Or.inr ⟨a, List.mem_cons_self a rest, hx1⟩
      · exact Or.inl (List.mem_cons_of_mem a hx2)
    · rw [updateFirst, if_neg ha] at hx
      rcases List.mem_cons.mp hx with hx1 | hx2
      · exact Or.inl (hx1 ▸ List.mem_cons_self a rest)
      · rcases ih hx2 with h1 | ⟨b, hb, hbe⟩
        · exact Or.inl (List.mem_cons_of_mem a h1)
        · exact Or.inr ⟨b, List.mem_cons_of_mem a hb, hbe⟩

theorem updateFirst_mem (f : SelectedElement → SelectedElement)
    (l : List SelectedElement) (id : Nat) :
    ∀ {x : SelectedElement},
      x ∈ l → x ∈ updateFirst l id f ∨ f x ∈ updateFirst l id f := by
  induction l with
  | nil => intro x hx; exact absurd hx (by simp)
  | cons a rest ih =>
    intro x hx
    by_cases ha : (a.id == id) = true
    · rw [updateFirst, if_pos ha]
      rcases List.mem_cons.mp hx with hx1 | hx2
      · exact Or.inr (hx1 ▸ List.mem_cons_self (f a) rest)
      · exact Or.inl (List.mem_cons_of_mem _ hx2)
    · rw [updateFirst, if_neg ha]
      rcases List.mem_cons.mp hx with hx1 | hx2
      · exact Or.inl (hx1 ▸ List.mem_cons_self a _)
      · rcases ih hx2 with h1 | h2
        · exact Or.inl (List.mem_cons_of_mem a h1)
        · exact Or.inr (List.mem_cons_of_mem a h2)

theorem parentRefsOK_updateFirst (f : SelectedElement → SelectedElement)
    (hid : ∀ a, (f a).id = a.id) (hpid : ∀ a, (f a).parentId = a.parentId)
    (l : List SelectedElement) (id : Nat) (h : ParentRefsOK l) :
    ParentRefsOK (updateFirst l id f) := by
  intro x hx pid hpidmem
  have hxl : ∃ a ∈ l, x.id = a.id ∧ x.parentId = a.parentId := by
    rcases mem_updateFirst f hx with hxm | ⟨a, ha, rfl⟩
    · exact ⟨x, hxm, rfl, rfl⟩
    · exact ⟨a, ha, hid a, hpid a⟩
  obtain ⟨a, ha, hxid, hxpid⟩ := hxl
  have hpm : pid ∈ a.parentId := by rw [← hxpid]; exact hpidmem
  obtain ⟨b, hbm, hbid, hbn⟩ := h a ha pid hpm
  rcases updateFirst_mem f l id hbm with hb1 | hb2
  · exact ⟨b, hb1, hbid, hbn⟩
  · exact ⟨f b, hb2, by rw [hid b]; exact hbid, by rw [hpid b]; exact hbn⟩

theorem strongInv_pushSelected (s : EditorState) (e : Elem) (label : String)
    (parentId : Option Nat) (nn : Int) (fsn : Nat) (h : StrongInv s)
    (hpar : ∀ pid ∈ parentId,
      ∃ b ∈ s.selectedElements, b.id = pid ∧ b.parentId = none) :
    StrongInv (pushSelected s e label parentId nn fsn).1 := by
  obtain ⟨hnd, hpr, hbd, hfo⟩ := h
  unfold pushSelected
  refine ⟨?_, ?_, ?_, ?_⟩
  · apply idsNodup_append_fresh _ _ hnd
    intro b hb
    exact Nat.ne_of_lt (hbd b hb)
  · exact parentRefsOK_append hpr hpar
  · intro a ha
    rcases List.mem_append.mp ha with h1 | h2
    · exact Nat.lt_succ_of_lt (hbd a h1)
    · have ha2 := List.mem_singleton.mp h2
      rw [ha2]
      exact Nat.lt_succ_self _
  · intro fid hfid
    obtain ⟨hlt, hall⟩ := hfo fid hfid
    refine ⟨Nat.lt_succ_of_lt hlt, ?_⟩
    intro a ha haid
    rcases List.mem_append.mp ha with h1 | h2
    · exact hall a h1 haid
    · have ha2 := List.mem_singleton.mp h2
      rw [ha2] at haid
      have hfe : s.freshId = fid := haid
      subst hfe
      exact absurd hlt (lt_irrefl _)

theorem strongInv_selectElement (s : EditorState) (e : Elem)
    (h : StrongInv s) : StrongInv (selectElement s e).1 := by
  unfold selectElement
  split_ifs with h1 h2 h3
  · exact h
  · exact h
  · exact h
  · split
    next fid hf =>
      split
      next p hp =>
        apply strongInv_pushSelected s e _ (some fid) _ _ h
        intro pid hpid
        rw [Option.mem_def] at hpid
        injection hpid with hpe
        subst hpe
        have hpm := List.mem_of_find?_eq_some hp
        have hpid2 : p.id = fid := by simpa using List.find?_some hp
        obtain ⟨hlt, hall⟩ := h.2.2.2 fid hf
        exact ⟨p, hpm, hpid2, hall p hpm hpid2⟩
      next hp =>
        exact strongInv_pushSelected s e _ none _ _ h
          (fun pid hpid => nomatch hpid)
    next =>
      exact strongInv_pushSelected s e _ none _ _ h
        (fun pid hpid => nomatch hpid)

theorem strongInv_deselectElement (s : EditorState) (id : Nat)
    (h : StrongInv s)
    (hg : s.selectedElements.all (fun a => a.parentId != some id) = true) :
    StrongInv (deselectElement s id).1 := by
  obtain ⟨hnd, hpr, hbd, hfo⟩ := h
  rw [List.all_eq_true] at hg
  unfold deselectElement
  refine ⟨idsNodup_filter _ _ hnd, ?_, ?_, ?_⟩
  · apply parentRefsOK_filter _ hpr
    intro a ha pid hpid b hb hbid hbn
    have hga := hg a ha
    rw [Option.mem_def] at hpid
    have hne : pid ≠ id := by
      intro hcontra
      subst hcontra
      rw [hpid] at hga
      simp at hga
    simp [hbid, hne]
  · intro a ha
    exact hbd a (List.mem_of_mem_filter ha)
  · intro fid hfid
    obtain ⟨hlt, hall⟩ := hfo fid hfid
    exact ⟨hlt, fun a ha haid => hall a (List.mem_of_mem_filter ha) haid⟩

theorem strongInv_mutOnFound (s : EditorState) (id : Nat)
    (f : SelectedElement → SelectedElement) (effs : List Eff)
    (hid : ∀ a, (f a).id = a.id)
    (hpid : ∀ a, (f a).parentId = a.parentId) (h : StrongInv s) :
    StrongInv (mutOnFound s id f effs).1 := by
  obtain ⟨hnd, hpr, hbd, hfo⟩ := h
  unfold mutOnFound
  split_ifs with h1
  · refine ⟨?_, parentRefsOK_updateFirst f hid hpid _ _ hpr, ?_, ?_⟩
    · unfold IdsNodup at *
      rw [updateFirst_map_eq f hid]
      exact hnd
    · intro a ha
      rcases mem_updateFirst f ha with h2 | ⟨b, hb, rfl⟩
      · exact hbd a h2
      · rw [hid b]
        exact hbd b hb
    · intro fid hfid
      obtain ⟨hlt, hall⟩ := hfo fid hfid
      refine ⟨hlt, ?_⟩
      intro a ha haid
      rcases mem_updateFirst f ha with h2 | ⟨b, hb, rfl⟩
      · exact hall a h2 haid
      · rw [hpid b]
        exact hall b hb (by rw [← hid b]; exact haid)
  · exact ⟨hnd, hpr, hbd, hfo⟩

theorem strongInv_startFocus (s : EditorState) (id : Nat) (h : StrongInv s)
    (hg : s.selectedElements.all
      (fun a => a.id != id || a.parentId == none) = true) :
    StrongInv (startFocus s id).1 := by
  obtain ⟨hnd, hpr, hbd, hfo⟩ := h
  rw [List.all_eq_true] at hg
  unfold startFocus
  cases hp : s.selectedElements.find? (fun a => a.id == id) with
  | none => exact ⟨hnd, hpr, hbd, hfo⟩
  | some p =>
    refine ⟨hnd, hpr, hbd, ?_⟩
    intro fid hfid
    rw [Option.mem_def] at hfid
    have hfe : id = fid := by simpa using hfid
    subst hfe
    constructor
    · have hpm := List.mem_of_find?_eq_some hp
      have hpid2 : p.id = id := by simpa using List.find?_some hp
      exact hpid2 ▸ hbd p hpm
    · intro a ha haid
      have hga := hg a ha
      rw [Bool.or_eq_true] at hga
      rcases hga with hga1 | hga2
      · exact absurd haid (by simpa using hga1)
      · simpa using hga2

theorem strongInv_endFocus (s : EditorState) (h : StrongInv s) :
    StrongInv (endFocus s).1 := by
  obtain ⟨hnd, hpr, hbd, hfo⟩ := h
  exact ⟨hnd, hpr, hbd, fun fid hfid => nomatch hfid⟩

theorem strongInv_clearAllSelections (s : EditorState) (h : StrongInv s) :
    StrongInv (clearAllSelections s).1 := by
  obtain ⟨hnd, hpr, hbd, hfo⟩ := h
  unfold clearAllSelections
  cases hf : s.focusedElementId with
  | none =>
    refine ⟨?_, ?_, ?_, ?_⟩
    · simp [IdsNodup]
    · intro a ha
      exact absurd ha (by simp)
    · intro a ha
      exact absurd ha (by simp)
    · intro fid hfid
      exact nomatch hfid
  | some fid =>
    refine ⟨idsNodup_filter _ _ hnd, ?_, ?_, ?_⟩
    · apply parentRefsOK_filter _ hpr
      intro a ha pid hpid b hb hbid hbn
      simp [hbn]
    · intro a ha
      exact hbd a (List.mem_of_mem_filter ha)
    · intro fid2 hfid2
      rw [Option.mem_def] at hfid2
      have hfe : fid = fid2 := by simpa using hfid2
      subst hfe
      obtain ⟨hlt, hall⟩ := hfo fid hf
      exact ⟨hlt, fun a ha haid => hall a (List.mem_of_mem_filter ha) haid⟩

theorem strongInv_runOp (s : EditorState) (op : Op) (h : StrongInv s)
    (hg : goodStep s op = true) : StrongInv (runOp s op).1 := by
  cases op with
  | select e => exact strongInv_selectElement s e h
  | deselect id => exact strongInv_deselectElement s id h hg
  | updLabel id label =>
    exact strongInv_mutOnFound s id _ _ (fun a => rfl) (fun a => rfl) h
  | updPadding id padding =>
    exact strongInv_mutOnFound s id _ _ (fun a => rfl) (fun a => rfl) h
  | updColor id color =>
    exact strongInv_mutOnFound s id _ _ (fun a => rfl) (fun a => rfl) h
  | startFocus id => exact strongInv_startFocus s id h hg
  | endFocus => exact strongInv_endFocus s h
  | clearAll => exact strongInv_clearAllSelections s h

theorem strongInv_init : StrongInv initState := by
  refine ⟨?_, ?_, ?_, ?_⟩
  · simp [IdsNodup, initState]
  · intro a ha
    exact absurd ha (by simp [initState])
  · intro a ha
    exact absurd ha (by simp [initState])
  · intro fid hfid
    exact absurd hfid (by simp [initState])

theorem strongInv_runOps :
    ∀ (ops : List Op) (s : EditorState), StrongInv s →
      goodTrace s ops = true → StrongInv (runOps s ops)
  | [], s, h, _ => h
  | op :: rest, s, h, hg => by
    rw [goodTrace, Bool.and_eq_true] at hg
    exact strongInv_runOps rest (runOp s op).1
      (strongInv_runOp s op h hg.1) hg.2

/-- C1 counterexample: from the empty store, select a parent, focus it,
select a child inside it, then deselect the parent.  The resulting store
holds a child whose `parentId` names no existing annotation — deselecting
a parent does leave dangling `parentId` references, refuting the claimed
invariant. -/
theorem c1_counterexample :
    ¬ ParentRefsOK (runOps initState opsBadC1).selectedElements := by decide

/-- C1 amended: for every operation sequence from the empty store in which
focus is only entered on top-level annotations and no annotation is
deselected while it still has children (the running guard `goodTrace`),
every annotation id is unique and every non-null `parentId` references an
existing top-level annotation.  Without the deselection guard the
reference invariant fails, as the counterexample shows. -/
theorem c1_store_invariant (ops : List Op)
    (hg : goodTrace initState ops = true) :
    IdsNodup (runOps initState ops).selectedElements ∧
    ParentRefsOK (runOps initState ops).selectedElements := by
  have h := strongInv_runOps ops initState strongInv_init hg
  exact ⟨h.1, h.2.1⟩

/-- C1 witness: a guarded trace that selects a parent, focuses it, selects
a child and deselects the (childless) child keeps the invariant. -/
theorem c1_store_invariant_witness :
    goodTrace initState opsGoodC1 = true ∧
    (IdsNodup (runOps initState opsGoodC1).selectedElements ∧
      ParentRefsOK (runOps initState opsGoodC1).selectedElements) :=
  ⟨by decide, c1_store_invariant opsGoodC1 (by decide)⟩
